import Mathlib

/-!
Verification development for the foedus engine fragment:
engine memory initialization (engine_memory.cpp), worker thread runtime
(thread_pimpl.cpp), the commit-conflict retry test (test_xct_commit_conflict.cpp),
and the TPC-E trade-order routine (tpce_trade_order.cpp).

Each C++ routine is shallowly embedded as an executable Lean function over
explicit state / oracle inputs; external nondeterminism (storage call results,
task arrival, random draws) is passed in as parameters.
-/

namespace Foedus

/-- Error codes surfaced by the modelled fragment (error_code.hpp at the
boundary; `other n` stands for any further code propagated unchanged). -/
inductive ErrorCode
  | outOfMemory
  | dependentModuleUnavailableInit
  | dependentModuleUnavailableUninit
  | memoryNumaUnavailable
  | memoryPagePoolTooSmall
  | xctRaceAbort
  | other (n : Nat)
  deriving DecidableEq, Repr

/-! ## Engine memory (engine_memory.cpp, EngineMemory::initialize_once) -/

/-- Per-node page resolver `(base_, begin_, end_)` as exposed by
`NumaNodeMemory::get_page_pool().get_resolver()`. -/
structure PageResolver where
  base_ : Nat
  begin_ : Nat
  end_ : Nat
  deriving DecidableEq, Repr

/-- Global page resolver assembled at the end of `initialize_once`:
the collected per-node bases plus the shared `[begin, end)`. -/
structure GlobalPageResolver where
  bases : List Nat
  numa_nodes : Nat
  begin_ : Nat
  end_ : Nat
  deriving DecidableEq, Repr

/-- `minimal_page_pool = total_threads * private_page_pool_initial_grab_ * PAGE_SIZE`
with `total_threads = group_count_ * thread_count_per_group_`
(engine_memory.cpp lines 28-30).  `page_size` abstracts `storage::PAGE_SIZE`. -/
def minimal_page_pool (group_count threads_per_group grab page_size : Nat) : Nat :=
  group_count * threads_per_group * grab * page_size

/-- Total page-pool bytes: `(uint64_t)page_pool_size_mb_per_node_ * group_count_ << 20`
(engine_memory.cpp line 31-32; `*` binds tighter than `<<` in C++).
The C++ computation is uint64; option fields are at most 32-bit and the group
count at most 256, so every intermediate stays below 2^64 and Nat agrees. -/
def pool_bytes (mb_per_node group_count : Nat) : Nat :=
  mb_per_node * group_count <<< 20

/-- The sizing comparison performed by the guard: total pool bytes strictly
below the minimum (engine_memory.cpp lines 31-33). -/
def sizing_fails (bytes minimal : Nat) : Bool :=
  bytes < minimal

/-- The "page pool too small" guard of `EngineMemory::initialize_once`. -/
def page_pool_too_small (mb_per_node group_count threads_per_group grab page_size : Nat) :
    Bool :=
  sizing_fails (pool_bytes mb_per_node group_count)
    (minimal_page_pool group_count threads_per_group grab page_size)

/-- Outcome of the node-initialization loop (engine_memory.cpp lines 40-53):
either it finishes, a node's `initialize()` fails (CHECK_ERROR propagates), or
an `ASSERT_ND` on the resolver bounds fires.  `ASSERT_ND`'s definition is not
part of the sources; per the spec a violated bounds invariant "is a fatal
startup error", so a failed assertion is a distinguished fatal outcome. -/
inductive InitLoopResult
  | done (bases : List Nat) (page_offset_begin page_offset_end : Nat)
  | failed (e : ErrorCode)
  | assertFailed
  deriving DecidableEq, Repr

/-- Modelled from the spec: the definition of `ASSERT_ND` (foedus/assert_nd.hpp)
is not among these sources.  The spec states that a violated resolver-bounds
invariant "is a fatal startup error", so a failed assertion is embedded as the
distinguished non-normal loop outcome. -/
def assert_nd_failure : InitLoopResult := .assertFailed

/-- The `for (node = 0; node < numa_nodes; ++node)` loop of `initialize_once`:
`node` is the current index, `count` the remaining iterations, `bases` the
collected resolver bases, `bb`/`ee` the begin/end recorded at node 0
(initialized to 0 as in the C++ locals).  On node 0 the bounds are recorded;
on later nodes equality with node 0's bounds is asserted. -/
def init_loop (node_init : Nat → Except ErrorCode PageResolver) :
    Nat → Nat → List Nat → Nat → Nat → InitLoopResult
  | _, 0, bases, bb, ee => .done bases bb ee
  | node, count + 1, bases, bb, ee =>
    match node_init node with
    | .error e => .failed e
    | .ok r =>
      if node = 0 then
        init_loop node_init (node + 1) count (bases ++ [r.base_]) r.begin_ r.end_
      else if r.begin_ = bb ∧ r.end_ = ee then
        init_loop node_init (node + 1) count (bases ++ [r.base_]) bb ee
      else
        assert_nd_failure

/-- Environment of `EngineMemory::initialize_once`: module states and options
read by the routine, plus the result of each node memory's `initialize()`
(`NumaNodeMemory` is a collaborator outside these sources). -/
structure EngineMemoryEnv where
  debug_initialized : Bool
  numa_available : Bool
  mb_per_node : Nat
  group_count : Nat
  threads_per_group : Nat
  grab : Nat
  page_size : Nat
  node_init : Nat → Except ErrorCode PageResolver

/-- Overall outcome of `EngineMemory::initialize_once`. -/
inductive InitOutcome
  | ok (resolver : GlobalPageResolver)
  | error (e : ErrorCode)
  | assertFailed
  deriving DecidableEq, Repr

/-- `EngineMemory::initialize_once` (engine_memory.cpp lines 17-57): the
dependent-module check, the NUMA check, the pool-sizing guard, the node loop,
and finally construction of the global page resolver. -/
def initialize_once (env : EngineMemoryEnv) : InitOutcome :=
  if !env.debug_initialized then
    .error .dependentModuleUnavailableInit
  else if !env.numa_available then
    .error .memoryNumaUnavailable
  else if page_pool_too_small env.mb_per_node env.group_count env.threads_per_group
      env.grab env.page_size then
    .error .memoryPagePoolTooSmall
  else
    match init_loop env.node_init 0 env.group_count [] 0 0 with
    | .done bases bb ee => .ok ⟨bases, env.group_count, bb, ee⟩
    | .failed e => .error e
    | .assertFailed => .assertFailed

/-! ### Lemmas about the node loop -/

/-- From a start node ≥ 1 the loop never re-enters the node-0 branch, so a
normal completion keeps the recorded bounds and forces every visited node's
resolver to carry exactly those bounds. -/
theorem init_loop_bounds (node_init : Nat → Except ErrorCode PageResolver) :
    ∀ (count node : Nat) (bases bases' : List Nat) (bb ee bb' ee' : Nat),
      1 ≤ node →
      init_loop node_init node count bases bb ee = .done bases' bb' ee' →
      bb' = bb ∧ ee' = ee ∧
        ∀ i, node ≤ i → i < node + count →
          ∃ r, node_init i = .ok r ∧ r.begin_ = bb ∧ r.end_ = ee := by
  intro count
  induction count with
  | zero =>
    intro node bases bases' bb ee bb' ee' hnode h
    simp only [init_loop] at h
    refine ⟨by cases h; rfl, by cases h; rfl, ?_⟩
    intro i hi hi'
    omega
  | succ c ih =>
    intro node bases bases' bb ee bb' ee' hnode h
    simp only [init_loop] at h
    cases hni : node_init node with
    | error e => rw [hni] at h; simp at h
    | ok r =>
      rw [hni] at h
      simp only at h
      have hne : ¬ (node = 0) := by omega
      rw [if_neg hne] at h
      by_cases hb : r.begin_ = bb ∧ r.end_ = ee
      · rw [if_pos hb] at h
        obtain ⟨h1, h2, h3⟩ := ih (node + 1) (bases ++ [r.base_]) bases' bb ee bb' ee'
          (by omega) h
        refine ⟨h1, h2, ?_⟩
        intro i hi hi'
        by_cases hieq : i = node
        · exact ⟨r, by rw [hieq]; exact hni, hb.1, hb.2⟩
        · exact h3 i (by omega) (by omega)
      · rw [if_neg hb] at h
        simp [assert_nd_failure] at h

/-- Normal completion of `initialize_once` yields a global resolver whose
`(begin, end)` are node 0's, and every node's resolver carries those bounds. -/
theorem initialize_once_bounds (env : EngineMemoryEnv) (gr : GlobalPageResolver)
    (h : initialize_once env = .ok gr) :
    ∀ i, i < env.group_count →
      ∃ r, env.node_init i = .ok r ∧ r.begin_ = gr.begin_ ∧ r.end_ = gr.end_ := by
  unfold initialize_once at h
  by_cases hd : env.debug_initialized
  · rw [if_neg (by simp [hd])] at h
    by_cases hn : env.numa_available
    · rw [if_neg (by simp [hn])] at h
      by_cases hp : page_pool_too_small env.mb_per_node env.group_count
          env.threads_per_group env.grab env.page_size
      · rw [if_pos hp] at h; simp at h
      · rw [if_neg hp] at h
        cases hloop : init_loop env.node_init 0 env.group_count [] 0 0 with
        | done bases bb ee =>
          rw [hloop] at h
          simp only [InitOutcome.ok.injEq] at h
          subst h
          simp only
          cases hg : env.group_count with
          | zero => intro i hi; omega
          | succ g =>
            rw [hg] at hloop
            simp only [init_loop] at hloop
            cases hni : env.node_init 0 with
            | error e => rw [hni] at hloop; simp at hloop
            | ok r =>
              rw [hni] at hloop
              simp only [if_pos rfl] at hloop
              obtain ⟨h1, h2, h3⟩ := init_loop_bounds env.node_init g 1 [r.base_]
                bases r.begin_ r.end_ bb ee (by omega) hloop
              intro i hi
              by_cases hieq : i = 0
              · subst hieq
                exact ⟨r, hni, by rw [h1], by rw [h2]⟩
              · obtain ⟨r', hr', hb', he'⟩ := h3 i (by omega) (by omega)
                exact ⟨r', hr', by rw [hb', h1], by rw [he', h2]⟩
        | failed e => rw [hloop] at h; simp at h
        | assertFailed => rw [hloop] at h; simp at h
    · rw [if_pos (by simp [hn])] at h; simp at h
  · rw [if_pos (by simp [hd])] at h; simp at h

/-! ## Worker thread runtime (thread_pimpl.cpp) -/

/-- Caller-side impersonation session (`ImpersonateSession`): the bound worker
reference (`thread_`, null until bound), the shared future onto the worker's
result outbox (modelled by the generation number of the promise it was taken
from; `none` until installed), and the task to hand over (`task_`). -/
structure Session where
  thread_ : Option Nat
  result_future_ : Option Nat
  task_ : Nat
  deriving DecidableEq, Repr

/-- Worker-side state of `ThreadPimpl` relevant to the impersonation handoff:
the `impersonated_` atomic flag, the inbox promise `impersonated_task_`
(outer `none` = no value set; inner `none` = the null shutdown signal), and
the result outbox `impersonated_task_result_`.  Each promise/future pair is
identified by a generation counter so that "a fresh pair was installed" is
expressible; the result slot holds the value set into the current pair. -/
structure WorkerState where
  id_ : Nat
  impersonated_ : Bool
  inbox_value : Option (Option Nat)
  outbox_gen : Nat
  outbox_value : Option ErrorCode
  deriving DecidableEq, Repr

/-- `ThreadPimpl::try_impersonate` (thread_pimpl.cpp lines 64-80).  The
sequential atomicity model of the compare-and-set: the CAS succeeds exactly
when `impersonated_` is false, flipping it to true.  On success a fresh result
promise is installed (generation bump, value cleared), the session is bound to
this worker, its future is attached to the new promise, and the task reference
is published into the inbox.  On failure nothing is touched. -/
def try_impersonate (w : WorkerState) (s : Session) :
    Bool × WorkerState × Session :=
  if w.impersonated_ = false then
    let w' : WorkerState :=
      { w with
        impersonated_ := true
        outbox_gen := w.outbox_gen + 1
        outbox_value := none
        inbox_value := some (some s.task_) }
    (true, w', { s with thread_ := some w.id_, result_future_ := some (w.outbox_gen + 1) })
  else
    (false, w, s)

/-- Events of the worker loop `ThreadPimpl::handle_tasks`
(thread_pimpl.cpp lines 38-62), in program order. -/
inductive WEvent
  | recvTask
  | installFreshInbox
  | execTask (t : Nat)
  | writeOutbox
  | clearImpersonated
  | setExited
  | releaseFence
  deriving DecidableEq, Repr

/-- Trace of `ThreadPimpl::handle_tasks` over the sequence of values the inbox
future delivers (`some t` = a task pointer, `none` = the null shutdown
signal).  Each round: block on the future (`recvTask`), reset the
promise/future pair (`installFreshInbox`), then either run the task, set the
result into the outbox and clear `impersonated_`, or — on null — break, set
`exitted_` and issue the release fence.  An exhausted input list means the
worker is still blocked on its inbox, so the trace simply stops. -/
def handle_tasks : List (Option Nat) → List WEvent
  | [] => []
  | none :: _ =>
    [.recvTask, .installFreshInbox, .setExited, .releaseFence]
  | some t :: rest =>
    .recvTask :: .installFreshInbox :: .execTask t :: .writeOutbox ::
      .clearImpersonated :: handle_tasks rest

/-- `ThreadPimpl` state touched by `uninitialize_once`:
the owned OS thread handle and the core-memory handle. -/
structure ThreadLifecycleState where
  raw_thread_ : Option Nat
  core_memory_ : Option Nat
  deriving DecidableEq, Repr

/-- Shutdown actions of `ThreadPimpl::uninitialize_once`, in program order. -/
inductive UEvent
  | sendNullSignal
  | joinThread
  | deleteThread
  deriving DecidableEq, Repr

/-- `ThreadPimpl::uninitialize_once` (thread_pimpl.cpp lines 27-36): when a
thread handle exists, set the null task (shutdown signal), join, delete and
null the handle; in every case null the core-memory handle and return ok
(`none` in the `Option ErrorCode` result slot). -/
def uninitialize_once_thread (s : ThreadLifecycleState) :
    ThreadLifecycleState × Option ErrorCode × List UEvent :=
  match s.raw_thread_ with
  | some _ =>
    (⟨none, none⟩, none, [.sendNullSignal, .joinThread, .deleteThread])
  | none =>
    ({ s with core_memory_ := none }, none, [])

/-! ## Retry driver (test_xct_commit_conflict.cpp, TestTask::run) -/

/-- One iteration's external outcomes for `TestTask::run`: the result of
`try_transaction` (`none` = ok), the value of `context->is_running_xct()`
observed after a failure, and the result of `abort_xct` if it gets called
(`none` = ok). -/
structure Attempt where
  try_result : Option ErrorCode
  running : Bool
  abort_result : Option ErrorCode
  deriving DecidableEq, Repr

/-- Calls the retry loop makes, in order. -/
inductive RetryEvent
  | tryTransaction
  | abortXct
  deriving DecidableEq, Repr

/-- How `TestTask::run` terminates: normal `RET_OK`; `COERCE_ERROR` on a
non-race error (fatal, surfacing that error); or `CHECK_ERROR` propagating a
failure of `abort_xct` out of `run`. -/
inductive RunResult
  | ok
  | fatal (e : ErrorCode)
  | returned (e : ErrorCode)
  deriving DecidableEq, Repr

/-- The retry loop of `TestTask::run` (test_xct_commit_conflict.cpp lines
66-78) over a finite prefix of iteration outcomes.  `none` as overall result
means the provided outcomes were exhausted with the loop still running. -/
def retry_loop : List Attempt → Option RunResult × List RetryEvent
  | [] => (none, [])
  | a :: rest =>
    match a.try_result with
    | none => (some .ok, [.tryTransaction])
    | some e =>
      if e = .xctRaceAbort then
        if a.running then
          match a.abort_result with
          | some ae => (some (.returned ae), [.tryTransaction, .abortXct])
          | none =>
            ((retry_loop rest).1, .tryTransaction :: .abortXct :: (retry_loop rest).2)
        else
          ((retry_loop rest).1, .tryTransaction :: (retry_loop rest).2)
      else
        (some (.fatal e), [.tryTransaction])

/-! ## Commit-conflict table semantics (test_xct_commit_conflict.cpp) -/

/-- The array record of the conflict test. -/
structure Payload where
  id_ : Nat
  data_ : Nat
  deriving DecidableEq, Repr

/-- Number of records and of worker tasks in the test (`RECORDS = THREADS = 10`). -/
def RECORDS : Nat := 10

/-- The per-task increment: task `i` adds `i * 20 + 4`
(test_xct_commit_conflict.cpp line 133). -/
def amount (i : Nat) : Nat := i * 20 + 4

/-- Table contents after `InitTask::run`: record `i` holds
`{id_ = i, data_ = 0}` (lines 45-50). -/
def init_table : Nat → Payload := fun i => ⟨i, 0⟩

/-- The committed effect of one `TestTask::try_transaction` with offset
`assign i` and amount `amount i` (lines 82-95): read the record, add the
amount to `data_`, and overwrite the whole record — `id_` is written back
unchanged; no other record is touched. -/
def apply_task (assign : Nat → Nat) (tbl : Nat → Payload) (i : Nat) : Nat → Payload :=
  fun r =>
    if r = assign i then
      ⟨(tbl (assign i)).id_, (tbl (assign i)).data_ + amount i⟩
    else
      tbl r

/-- A serializable execution of the ten increment transactions is equivalent
to running them in some serial order: fold the committed effects over that
order. -/
def run_serial (assign : Nat → Nat) (order : List Nat) (tbl : Nat → Payload) :
    Nat → Payload :=
  order.foldl (apply_task assign) tbl

/-- The expected final `data_` of record `r`: the sum of the amounts of the
tasks assigned to `r` (the multiset of operations, lines 146-150). -/
def expected_data (assign : Nat → Nat) (r : Nat) : Nat :=
  (((List.range RECORDS).filter fun i => assign i = r).map amount).sum

/-! ## TPC-E trade order (tpce_trade_order.cpp, TpceClientTask::do_trade_order) -/

/-- A TRADE_TYPE record as read by the scan; only the `id_` field is
inspected (via `memcmp`), modelled with decidable equality. -/
structure TradeTypeData where
  id_ : String
  deriving DecidableEq, Repr

/-- `TradeTypeData::kCount`: the five trade types TLB, TLS, TMB, TMS, TSL. -/
def kCount : Nat := 5

/-- External results of the storage calls `do_trade_order` makes:
`trade_types.get_record` per index, `trades.insert_record`, and
`trades_index.insert_record_normalized` (`Except` carries the first
argument's error code unchanged). -/
structure TradeOrderOracle where
  tt_get : Nat → Except ErrorCode TradeTypeData
  insert_trade : Except ErrorCode Unit
  insert_index : Except ErrorCode Unit

/-- Storage calls issued by `do_trade_order`, with their arguments. -/
inductive TOEvent
  | getTradeType (i : Nat)
  | insertPrimary (tid dts : Nat)
  | insertSecondary (symb dts worker tid : Nat)
  deriving DecidableEq, Repr

/-- Overall outcome of `do_trade_order`: `kErrorCodeOk`, a propagated storage
error code, or the `ASSERT_ND(type_found)` firing (its definition is not in
these sources; per the spec assertions are fatal, so it is a distinguished
outcome rather than a return code). -/
inductive TOOutcome
  | ok
  | err (e : ErrorCode)
  | assertFailed
  deriving DecidableEq, Repr

/-- Modelled from the spec: `ASSERT_ND(type_found)` relies on the assertion
macro defined outside these sources; per the spec an assertion violation is
fatal, so its failure is the distinguished outcome `TOOutcome.assertFailed`. -/
def assert_nd_trade_failure : TOOutcome := .assertFailed

/-- The TRADE_TYPE scan loop (tpce_trade_order.cpp lines 59-67): for
`i = 0 .. kCount-1`, `CHECK_ERROR_CODE(trade_types.get_record(...))`, then
break as soon as the record's `id_` equals the requested type.  Returns
whether a match was found (or the first error code) plus the calls made. -/
def scan_trade_types (o : TradeOrderOracle) (target : String) :
    Nat → Nat → Except ErrorCode Bool × List TOEvent
  | _, 0 => (.ok false, [])
  | i, fuel + 1 =>
    match o.tt_get i with
    | .error e => (.error e, [.getTradeType i])
    | .ok rec =>
      if rec.id_ = target then
        (.ok true, [.getTradeType i])
      else
        ((scan_trade_types o target (i + 1) fuel).1,
          .getTradeType i :: (scan_trade_types o target (i + 1) fuel).2)

/-- `TpceClientTask::do_trade_order` (tpce_trade_order.cpp lines 29-91),
Frame-3 and Frame-4.  The requested trade-type id (`in_trade_type_id`, picked
from the random draw via the switch on enum constants declared outside these
sources), the generated trade id (`tid`), the artificial current datetime
(`dts`), the record's symbol id (`symb`) and the worker id (`worker`) enter as
parameters.  After a successful scan the new TRADE record carrying `tid` and
`dts` is inserted into the primary storage under key `tid`, then the trade id
is inserted into the secondary index under the key composed from
`(symb, dts, worker)`; the first failing call's code is returned by
`CHECK_ERROR_CODE`. -/
def do_trade_order (o : TradeOrderOracle) (target : String)
    (tid dts symb worker : Nat) : TOOutcome × List TOEvent :=
  match scan_trade_types o target 0 kCount with
  | (.error e, evs) => (.err e, evs)
  | (.ok found, evs) =>
    if found = false then
      (assert_nd_trade_failure, evs)
    else
      match o.insert_trade with
      | .error e => (.err e, evs ++ [.insertPrimary tid dts])
      | .ok _ =>
        match o.insert_index with
        | .error e =>
          (.err e, evs ++ [.insertPrimary tid dts, .insertSecondary symb dts worker tid])
        | .ok _ =>
          (.ok, evs ++ [.insertPrimary tid dts, .insertSecondary symb dts worker tid])

/-! ## Claim theorems -/

/-- C1: `try_impersonate` succeeds exactly when the worker's `impersonated_`
flag is flipped from false to true by the compare-and-set; on success it
installs a fresh single-shot result outbox (a new promise generation with an
empty value slot), binds the session to the worker with a future onto that
new outbox, and publishes the task reference into the inbox; on failure it
returns false and leaves both the worker and the session untouched.  The
embedding is a total function, so the call never blocks. -/
theorem try_impersonate_spec (w : WorkerState) (s : Session) :
    ((try_impersonate w s).1 = true ↔ w.impersonated_ = false) ∧
    ((try_impersonate w s).1 = true →
      (try_impersonate w s).2.1.impersonated_ = true ∧
      (try_impersonate w s).2.1.outbox_gen = w.outbox_gen + 1 ∧
      (try_impersonate w s).2.1.outbox_value = none ∧
      (try_impersonate w s).2.2.thread_ = some w.id_ ∧
      (try_impersonate w s).2.2.result_future_ =
        some (try_impersonate w s).2.1.outbox_gen ∧
      (try_impersonate w s).2.1.inbox_value = some (some s.task_)) ∧
    ((try_impersonate w s).1 = false →
      (try_impersonate w s).2.1 = w ∧ (try_impersonate w s).2.2 = s) := by
  unfold try_impersonate
  by_cases h : w.impersonated_ = false <;> simp [h]

/-- Witness for C1: a concrete idle worker is acquired, with the session
bound and the task published. -/
theorem try_impersonate_spec_witness :
    (try_impersonate ⟨7, false, none, 3, none⟩ ⟨none, none, 42⟩).1 = true ∧
    (try_impersonate ⟨7, false, none, 3, none⟩ ⟨none, none, 42⟩).2.1.impersonated_ = true ∧
    (try_impersonate ⟨7, false, none, 3, none⟩ ⟨none, none, 42⟩).2.2.thread_ = some 7 ∧
    (try_impersonate ⟨7, false, none, 3, none⟩ ⟨none, none, 42⟩).2.1.inbox_value =
      some (some 42) := by
  have h := try_impersonate_spec ⟨7, false, none, 3, none⟩ ⟨none, none, 42⟩
  have h1 : (try_impersonate ⟨7, false, none, 3, none⟩ ⟨none, none, 42⟩).1 = true :=
    h.1.mpr rfl
  exact ⟨h1, (h.2.1 h1).1, (h.2.1 h1).2.2.2.1, (h.2.1 h1).2.2.2.2.2⟩

/-- C10: `ThreadPimpl::uninitialize_once` is idempotent at the public
interface.  Every call returns ok and leaves both handles null; a call that
finds a live thread handle sends the null shutdown signal, joins and deletes
the worker thread; a subsequent call performs no shutdown work (empty action
list), returns ok, and leaves the state unchanged. -/
theorem uninitialize_once_thread_idempotent (s : ThreadLifecycleState) :
    (uninitialize_once_thread s).2.1 = none ∧
    (uninitialize_once_thread s).1.raw_thread_ = none ∧
    (uninitialize_once_thread s).1.core_memory_ = none ∧
    (∀ t, s.raw_thread_ = some t →
      (uninitialize_once_thread s).2.2 =
        [.sendNullSignal, .joinThread, .deleteThread]) ∧
    uninitialize_once_thread (uninitialize_once_thread s).1 =
      ((uninitialize_once_thread s).1, none, []) := by
  cases h : s.raw_thread_ <;> simp [uninitialize_once_thread, h]

/-- Witness for C10: a live worker is shut down on the first call; the second
call does nothing and returns ok. -/
theorem uninitialize_once_thread_idempotent_witness :
    (uninitialize_once_thread ⟨some 3, some 5⟩).2.2 =
      [.sendNullSignal, .joinThread, .deleteThread] ∧
    uninitialize_once_thread (uninitialize_once_thread ⟨some 3, some 5⟩).1 =
      ((uninitialize_once_thread ⟨some 3, some 5⟩).1, none, []) := by
  have h := uninitialize_once_thread_idempotent ⟨some 3, some 5⟩
  exact ⟨h.2.2.2.1 3 rfl, h.2.2.2.2⟩

/-- A node-loop failure only propagates an error produced by some node's
`initialize()`. -/
theorem init_loop_failed (node_init : Nat → Except ErrorCode PageResolver) :
    ∀ (count node : Nat) (bases : List Nat) (bb ee : Nat) (e : ErrorCode),
      init_loop node_init node count bases bb ee = .failed e →
      ∃ i, node_init i = .error e := by
  intro count
  induction count with
  | zero =>
    intro node bases bb ee e h
    simp [init_loop] at h
  | succ c ih =>
    intro node bases bb ee e h
    simp only [init_loop] at h
    cases hni : node_init node with
    | error e' =>
      rw [hni] at h
      simp only [InitLoopResult.failed.injEq] at h
      exact ⟨node, by rw [hni, h]⟩
    | ok r =>
      rw [hni] at h
      simp only at h
      by_cases h0 : node = 0
      · rw [if_pos h0] at h
        exact ih (node + 1) (bases ++ [r.base_]) r.begin_ r.end_ e h
      · rw [if_neg h0] at h
        by_cases hb : r.begin_ = bb ∧ r.end_ = ee
        · rw [if_pos hb] at h
          exact ih (node + 1) (bases ++ [r.base_]) bb ee e h
        · rw [if_neg hb] at h
          simp [assert_nd_failure] at h

/-- C4: once the dependent-module and NUMA checks pass (and node-memory
initialization never itself reports the pool-sizing code), engine-memory
initialization fails with the page-pool-too-small error exactly when the
total pool bytes `page_pool_size_per_node * group_count` are strictly below
`minimal_page_pool = (group_count * threads_per_group) * private_initial_grab
* page_size`; with the product equal to `minimal_page_pool` the sizing guard
passes, and one byte less than the minimum makes the guard's comparison
fail. -/
theorem page_pool_sizing (env : EngineMemoryEnv)
    (hd : env.debug_initialized = true) (hn : env.numa_available = true)
    (hni : ∀ i, env.node_init i ≠ .error .memoryPagePoolTooSmall)
    (hpos : 0 < minimal_page_pool env.group_count env.threads_per_group
      env.grab env.page_size) :
    (initialize_once env = .error .memoryPagePoolTooSmall ↔
      pool_bytes env.mb_per_node env.group_count <
        minimal_page_pool env.group_count env.threads_per_group env.grab env.page_size) ∧
    (pool_bytes env.mb_per_node env.group_count =
        minimal_page_pool env.group_count env.threads_per_group env.grab env.page_size →
      page_pool_too_small env.mb_per_node env.group_count env.threads_per_group
        env.grab env.page_size = false) ∧
    sizing_fails
      (minimal_page_pool env.group_count env.threads_per_group env.grab env.page_size - 1)
      (minimal_page_pool env.group_count env.threads_per_group env.grab env.page_size)
      = true ∧
    sizing_fails
      (minimal_page_pool env.group_count env.threads_per_group env.grab env.page_size)
      (minimal_page_pool env.group_count env.threads_per_group env.grab env.page_size)
      = false := by
  refine ⟨?_, ?_, ?_, ?_⟩
  · unfold initialize_once
    rw [if_neg (by simp [hd]), if_neg (by simp [hn])]
    by_cases hp : page_pool_too_small env.mb_per_node env.group_count
        env.threads_per_group env.grab env.page_size
    · rw [if_pos hp]
      simp only [page_pool_too_small, sizing_fails, decide_eq_true_eq] at hp
      simp [hp]
    · rw [if_neg hp]
      simp only [page_pool_too_small, sizing_fails, decide_eq_true_eq] at hp
      constructor
      · intro h
        cases hloop : init_loop env.node_init 0 env.group_count [] 0 0 with
        | done bases bb ee => rw [hloop] at h; simp at h
        | failed e =>
          rw [hloop] at h
          simp only [InitOutcome.error.injEq] at h
          obtain ⟨i, hi⟩ := init_loop_failed env.node_init env.group_count 0 [] 0 0 e hloop
          exact absurd (by rw [hi, h]) (hni i)
        | assertFailed => rw [hloop] at h; simp at h
      · intro h
        exact absurd h hp
  · intro h
    simp only [page_pool_too_small, sizing_fails, h]
    simp
  · simp only [sizing_fails, decide_eq_true_eq]
    omega
  · simp [sizing_fails]

/-- Witness for C4: a 2-node engine with 2 threads per node, one initial grab
of one 4096-byte page per thread, and 1 MB of pool per node; the pool is
ample, so the guard passes and the sizing boundary facts hold. -/
theorem page_pool_sizing_witness :
    (initialize_once
        ⟨true, true, 1, 2, 2, 1, 4096, fun i => .ok ⟨100 + i, 1, 5⟩⟩ =
       .error .memoryPagePoolTooSmall ↔
      pool_bytes 1 2 < minimal_page_pool 2 2 1 4096) ∧
    (pool_bytes 1 2 = minimal_page_pool 2 2 1 4096 →
      page_pool_too_small 1 2 2 1 4096 = false) ∧
    sizing_fails (minimal_page_pool 2 2 1 4096 - 1) (minimal_page_pool 2 2 1 4096)
      = true ∧
    sizing_fails (minimal_page_pool 2 2 1 4096) (minimal_page_pool 2 2 1 4096)
      = false :=
  page_pool_sizing ⟨true, true, 1, 2, 2, 1, 4096, fun i => .ok ⟨100 + i, 1, 5⟩⟩
    rfl rfl (fun _ => by simp) (by decide)

/-- C5: when engine-memory initialization completes normally, every node's
resolver carries the same `(begin, end)` as the global resolver records from
node 0, so any two nodes' bounds agree; conversely, with two initialized
nodes whose bounds differ, initialization never completes normally — the
bounds assertion makes it a fatal startup outcome. -/
theorem resolver_bounds_invariant (env : EngineMemoryEnv) :
    (∀ gr, initialize_once env = .ok gr →
      ∀ i, i < env.group_count →
        ∃ r, env.node_init i = .ok r ∧ r.begin_ = gr.begin_ ∧ r.end_ = gr.end_) ∧
    (∀ i j ri rj, i < env.group_count → j < env.group_count →
      env.node_init i = .ok ri → env.node_init j = .ok rj →
      ri.begin_ ≠ rj.begin_ ∨ ri.end_ ≠ rj.end_ →
      ∀ gr, initialize_once env ≠ .ok gr) := by
  refine ⟨fun gr h => initialize_once_bounds env gr h, ?_⟩
  intro i j ri rj hi hj hri hrj hne gr h
  obtain ⟨ri', hri', hbi, hei⟩ := initialize_once_bounds env gr h i hi
  obtain ⟨rj', hrj', hbj, hej⟩ := initialize_once_bounds env gr h j hj
  rw [hri] at hri'
  rw [hrj] at hrj'
  cases hri'
  cases hrj'
  cases hne with
  | inl hb => exact hb (by rw [hbi, hbj])
  | inr he => exact he (by rw [hei, hej])

/-- Witness for C5: a concrete 2-node initialization that completes normally
has node 1's resolver carrying the global bounds, and flipping node 1's
bounds makes normal completion impossible. -/
theorem resolver_bounds_invariant_witness :
    (∃ r, (fun i => (Except.ok (⟨100 + i, 1, 5⟩ : PageResolver) :
        Except ErrorCode PageResolver)) 1 = .ok r ∧
      r.begin_ = 1 ∧ r.end_ = 5) ∧
    initialize_once ⟨true, true, 1, 2, 2, 1, 4096,
        fun i => .ok ⟨100 + i, 1, 5 + i⟩⟩ ≠
      .ok ⟨[100, 101], 2, 1, 5⟩ := by
  constructor
  · have h := (resolver_bounds_invariant
      ⟨true, true, 1, 2, 2, 1, 4096, fun i => .ok ⟨100 + i, 1, 5⟩⟩).1
      ⟨[100, 101], 2, 1, 5⟩ (by decide) 1 (by decide)
    exact h
  · exact (resolver_bounds_invariant
      ⟨true, true, 1, 2, 2, 1, 4096, fun i => .ok ⟨100 + i, 1, 5 + i⟩⟩).2
      0 1 ⟨100, 1, 5⟩ ⟨101, 1, 6⟩ (by decide) (by decide) rfl rfl
      (Or.inr (by decide)) ⟨[100, 101], 2, 1, 5⟩

/-- The worker-loop trace is empty (still blocked on the inbox) or starts
with the blocking inbox read. -/
theorem handle_tasks_shape (ts : List (Option Nat)) :
    handle_tasks ts = [] ∨ ∃ tl, handle_tasks ts = .recvTask :: tl := by
  cases ts with
  | nil => exact Or.inl rfl
  | cons hd tl =>
    cases hd with
    | none => exact Or.inr ⟨_, rfl⟩
    | some t => exact Or.inr ⟨_, rfl⟩

/-- In any worker-loop trace, the `impersonated_` clear is immediately
preceded by the outbox write, and a task execution is immediately preceded by
the fresh-inbox installation. -/
theorem handle_tasks_prev : ∀ (ts : List (Option Nat)) (i : Nat),
    ((handle_tasks ts)[i + 1]? = some .clearImpersonated →
      (handle_tasks ts)[i]? = some .writeOutbox) ∧
    (∀ u, (handle_tasks ts)[i + 1]? = some (.execTask u) →
      (handle_tasks ts)[i]? = some .installFreshInbox) := by
  intro ts
  induction ts with
  | nil =>
    intro i
    refine ⟨fun h => ?_, fun u h => ?_⟩ <;> simp [handle_tasks] at h
  | cons hd tl ih =>
    intro i
    cases hd with
    | none =>
      refine ⟨fun h => ?_, fun u h => ?_⟩ <;>
        (rcases i with _ | _ | _ | i <;> simp [handle_tasks] at h)
    | some t =>
      refine ⟨fun h => ?_, fun u h => ?_⟩
      · rcases i with _ | _ | _ | _ | _ | i
        · simp [handle_tasks] at h
        · simp [handle_tasks] at h
        · simp [handle_tasks] at h
        · simp [handle_tasks]
        · simp only [handle_tasks, List.getElem?_cons_succ] at h
          rcases handle_tasks_shape tl with h0 | ⟨tl', h0⟩ <;>
            rw [h0] at h <;> simp at h
        · simp only [handle_tasks, List.getElem?_cons_succ] at h ⊢
          exact (ih i).1 h
      · rcases i with _ | _ | _ | _ | _ | i
        · simp [handle_tasks] at h
        · simp [handle_tasks]
        · simp [handle_tasks] at h
        · simp [handle_tasks] at h
        · simp only [handle_tasks, List.getElem?_cons_succ] at h
          rcases handle_tasks_shape tl with h0 | ⟨tl', h0⟩ <;>
            rw [h0] at h <;> simp at h
        · simp only [handle_tasks, List.getElem?_cons_succ] at h ⊢
          exact (ih i).2 u h

/-- C3: each worker-loop round receives from the inbox, installs the fresh
inbox before anything else, and — for a non-null task — executes, writes the
result to the outbox and only then clears the `impersonated` flag (temporal
order shown both by the per-round trace equations and by the adjacency of
`writeOutbox` before every `clearImpersonated` and of `installFreshInbox`
before every `execTask`); a null task breaks the loop and the worker then
publishes the exited flag followed by the release fence. -/
theorem handle_tasks_ordering (ts : List (Option Nat)) (t : Nat) (i : Nat) :
    handle_tasks (some t :: ts) =
      [.recvTask, .installFreshInbox, .execTask t, .writeOutbox, .clearImpersonated]
        ++ handle_tasks ts ∧
    handle_tasks (none :: ts) =
      [.recvTask, .installFreshInbox, .setExited, .releaseFence] ∧
    ((handle_tasks ts)[i + 1]? = some .clearImpersonated →
      (handle_tasks ts)[i]? = some .writeOutbox) ∧
    (∀ u, (handle_tasks ts)[i + 1]? = some (.execTask u) →
      (handle_tasks ts)[i]? = some .installFreshInbox) :=
  ⟨rfl, rfl, (handle_tasks_prev ts i).1, (handle_tasks_prev ts i).2⟩

/-- Witness for C3: in the two-round trace "one task, then shutdown", the
clear of `impersonated_` at position 4 is immediately preceded by the outbox
write, and the execution at position 2 by the fresh-inbox installation. -/
theorem handle_tasks_ordering_witness :
    (handle_tasks [some 9, none])[3 + 1]? = some .clearImpersonated ∧
    (handle_tasks [some 9, none])[3]? = some .writeOutbox ∧
    (handle_tasks [some 9, none])[1 + 1]? = some (.execTask 9) ∧
    (handle_tasks [some 9, none])[1]? = some .installFreshInbox := by
  have h := handle_tasks_ordering [some 9, none] 9 3
  have h1 := handle_tasks_ordering [some 9, none] 9 1
  exact ⟨by decide, h.2.2.1 (by decide), by decide, h1.2.2.2 9 (by decide)⟩

/-- If no `abort_xct` call reports a race abort, the retry loop never
terminates with a race-abort value. -/
theorem retry_loop_no_race : ∀ (l : List Attempt),
    (∀ b ∈ l, b.abort_result ≠ some ErrorCode.xctRaceAbort) →
    ∀ r, (retry_loop l).1 = some r →
      r ≠ .fatal .xctRaceAbort ∧ r ≠ .returned .xctRaceAbort := by
  intro l
  induction l with
  | nil => intro _ r h; simp [retry_loop] at h
  | cons a rest ih =>
    intro hab r h
    simp only [retry_loop] at h
    cases hta : a.try_result with
    | none =>
      rw [hta] at h
      simp only [Option.some.injEq] at h
      subst h
      exact ⟨by simp, by simp⟩
    | some e =>
      rw [hta] at h
      simp only at h
      by_cases he : e = ErrorCode.xctRaceAbort
      · rw [if_pos he] at h
        by_cases hr : a.running = true
        · rw [if_pos hr] at h
          cases hab0 : a.abort_result with
          | some ae =>
            rw [hab0] at h
            simp only [Option.some.injEq] at h
            subst h
            have hne : ae ≠ ErrorCode.xctRaceAbort := by
              intro hcon
              exact hab a (List.mem_cons_self a rest) (by rw [hab0, hcon])
            exact ⟨by simp, by simp [hne]⟩
          | none =>
            rw [hab0] at h
            exact ih (fun b hb => hab b (List.mem_cons_of_mem a hb)) r h
        · rw [if_neg hr] at h
          exact ih (fun b hb => hab b (List.mem_cons_of_mem a hb)) r h
      · rw [if_neg he] at h
        simp only [Option.some.injEq] at h
        subst h
        exact ⟨by simp [he], by simp⟩

/-- C2: in the retry driver `TestTask::run`, an ok result of
`try_transaction` terminates the loop with ok; a race-abort result leads to
an `abort_xct` call exactly when a transaction is still active, and then to a
retry; a non-race error terminates the loop at once (no retry) and is
surfaced as that same error; and — since `abort_xct` never reports a race —
the value the driver hands back is never a race abort. -/
theorem retry_loop_spec (attempts rest : List Attempt) (a : Attempt)
    (e : ErrorCode) (r : RunResult) :
    (a.try_result = none →
      retry_loop (a :: rest) = (some .ok, [.tryTransaction])) ∧
    (a.try_result = some .xctRaceAbort → a.running = true → a.abort_result = none →
      retry_loop (a :: rest) =
        ((retry_loop rest).1, .tryTransaction :: .abortXct :: (retry_loop rest).2)) ∧
    (a.try_result = some .xctRaceAbort → a.running = false →
      retry_loop (a :: rest) =
        ((retry_loop rest).1, .tryTransaction :: (retry_loop rest).2)) ∧
    (a.try_result = some e → e ≠ .xctRaceAbort →
      retry_loop (a :: rest) = (some (.fatal e), [.tryTransaction])) ∧
    ((∀ b ∈ attempts, b.abort_result ≠ some ErrorCode.xctRaceAbort) →
      (retry_loop attempts).1 = some r →
      r ≠ .fatal .xctRaceAbort ∧ r ≠ .returned .xctRaceAbort) := by
  refine ⟨?_, ?_, ?_, ?_, fun hab h => retry_loop_no_race attempts hab r h⟩
  · intro h
    simp [retry_loop, h]
  · intro h hr hab
    simp [retry_loop, h, hr, hab]
  · intro h hr
    simp [retry_loop, h, hr]
  · intro h he
    simp [retry_loop, h, he]

/-- Witness for C2: a race-abort attempt with an active transaction aborts
and retries, the following ok attempt ends the loop with ok, and the
terminal value of that concrete run is not a race abort. -/
theorem retry_loop_spec_witness :
    retry_loop [⟨some .xctRaceAbort, true, none⟩, ⟨none, false, none⟩] =
      (some .ok, [.tryTransaction, .abortXct, .tryTransaction]) ∧
    (RunResult.ok ≠ .fatal .xctRaceAbort ∧ RunResult.ok ≠ .returned .xctRaceAbort) := by
  have h := retry_loop_spec [⟨some .xctRaceAbort, true, none⟩, ⟨none, false, none⟩]
    [⟨none, false, none⟩] ⟨some .xctRaceAbort, true, none⟩ (.other 0) .ok
  have h2 := retry_loop_spec [] [] ⟨none, false, none⟩ (.other 0) .ok
  refine ⟨?_, h.2.2.2.2 (by decide) (by decide)⟩
  rw [h.2.1 rfl rfl rfl, h2.1 rfl]

/-- Running any serial order of increments adds, to each record's `data_`,
the sum of the amounts of the tasks in the order that are assigned to it. -/
theorem run_serial_data (assign : Nat → Nat) :
    ∀ (l : List Nat) (tbl : Nat → Payload) (r : Nat),
      (run_serial assign l tbl r).data_ =
        (tbl r).data_ + ((l.filter fun i => assign i = r).map amount).sum := by
  intro l
  induction l with
  | nil => intro tbl r; simp [run_serial]
  | cons a l ih =>
    intro tbl r
    simp only [run_serial, List.foldl_cons] at *
    rw [ih (apply_task assign tbl a) r]
    by_cases h : assign a = r
    · subst h
      have h1 : apply_task assign tbl a (assign a) =
          ⟨(tbl (assign a)).id_, (tbl (assign a)).data_ + amount a⟩ := by
        simp [apply_task]
      have h2 : (a :: l).filter (fun i => assign i = assign a) =
          a :: l.filter (fun i => assign i = assign a) := by
        simp [List.filter_cons]
      rw [h1, h2, List.map_cons, List.sum_cons]
      dsimp only
      omega
    · have h1 : apply_task assign tbl a r = tbl r := by
        unfold apply_task
        rw [if_neg (fun hc => h hc.symm)]
      have h2 : (a :: l).filter (fun i => assign i = r) =
          l.filter (fun i => assign i = r) := by
        simp [List.filter_cons, h]
      rw [h1, h2]

/-- No increment ever changes a record's `id_`. -/
theorem run_serial_id (assign : Nat → Nat) :
    ∀ (l : List Nat) (tbl : Nat → Payload) (r : Nat),
      (run_serial assign l tbl r).id_ = (tbl r).id_ := by
  intro l
  induction l with
  | nil => intro tbl r; simp [run_serial]
  | cons a l ih =>
    intro tbl r
    simp only [run_serial, List.foldl_cons] at *
    rw [ih (apply_task assign tbl a) r]
    by_cases h : r = assign a
    · subst h
      simp [apply_task]
    · simp [apply_task, h]

/-- C6: the final table state depends only on the multiset of increment
operations: under any commit order that is a permutation of the ten tasks,
record `r`'s final `data_` is the sum of `i*20+4` over the tasks `i` with
`assign i = r`; and when every task is assigned to record 0
(ExtremeConflict), record 0 ends at 940 while records 1..9 stay 0. -/
theorem conflict_sum_spec (assign : Nat → Nat) (l : List Nat) (r : Nat)
    (hperm : l.Perm (List.range RECORDS)) :
    (run_serial assign l init_table r).data_ = expected_data assign r ∧
    ((∀ i, assign i = 0) →
      (run_serial assign l init_table 0).data_ = 940 ∧
      (1 ≤ r → r ≤ 9 → (run_serial assign l init_table r).data_ = 0)) := by
  have hmain : ∀ r', (run_serial assign l init_table r').data_ =
      expected_data assign r' := by
    intro r'
    rw [run_serial_data]
    unfold expected_data init_table
    have : (l.filter fun i => assign i = r').Perm
        ((List.range RECORDS).filter fun i => assign i = r') :=
      hperm.filter _
    simp [(this.map amount).sum_eq]
  refine ⟨hmain r, fun hassign => ⟨?_, fun h1 h9 => ?_⟩⟩
  · rw [hmain 0]
    unfold expected_data
    have : ((List.range RECORDS).filter fun i => assign i = 0) =
        List.range RECORDS :=
      List.filter_eq_self.mpr (fun i _ => by simp [hassign i])
    rw [this]
    decide
  · rw [hmain r]
    unfold expected_data
    have : ((List.range RECORDS).filter fun i => assign i = r) = [] :=
      List.filter_eq_nil_iff.mpr (fun i _ => by simp [hassign i]; omega)
    rw [this]
    rfl

/-- Witness for C6: with every task assigned to record 0 and the natural
commit order, record 0 finishes at 940 and record 5 at 0. -/
theorem conflict_sum_spec_witness :
    (run_serial (fun _ => 0) (List.range RECORDS) init_table 0).data_ = 940 ∧
    (run_serial (fun _ => 0) (List.range RECORDS) init_table 5).data_ = 0 := by
  have h := conflict_sum_spec (fun _ => 0) (List.range RECORDS) 5 (List.Perm.refl _)
  exact ⟨(h.2 (fun _ => rfl)).1, (h.2 (fun _ => rfl)).2 (by decide) (by decide)⟩

/-- Counterexample to C7 as stated: in the LightConflict scenario the two
tasks assigned to record 1 add `2*20+4 = 44` and `3*20+4 = 64`, so record 1
finishes at 108 — not at the claimed 112 (records 2, 3, 4 are likewise 188,
268, 348, each 4 below the claimed value). -/
theorem light_conflict_counterexample :
    (run_serial (fun i => i / 2) (List.range RECORDS) init_table 1).data_ = 108 ∧
    (run_serial (fun i => i / 2) (List.range RECORDS) init_table 1).data_ ≠ 112 := by
  decide

/-- C7 amended: in the LightConflict scenario (`assign i = i / 2`), for any
commit order the final `data_` values are 28, 108, 188, 268, 348 on records
0..4 and 0 on records 5..9. -/
theorem light_conflict_spec (l : List Nat) (r : Nat)
    (hperm : l.Perm (List.range RECORDS)) :
    (run_serial (fun i => i / 2) l init_table 0).data_ = 28 ∧
    (run_serial (fun i => i / 2) l init_table 1).data_ = 108 ∧
    (run_serial (fun i => i / 2) l init_table 2).data_ = 188 ∧
    (run_serial (fun i => i / 2) l init_table 3).data_ = 268 ∧
    (run_serial (fun i => i / 2) l init_table 4).data_ = 348 ∧
    (5 ≤ r → r ≤ 9 → (run_serial (fun i => i / 2) l init_table r).data_ = 0) := by
  have hmain : ∀ r', (run_serial (fun i => i / 2) l init_table r').data_ =
      expected_data (fun i => i / 2) r' := by
    intro r'
    rw [run_serial_data]
    unfold expected_data init_table
    have : (l.filter fun i => i / 2 = r').Perm
        ((List.range RECORDS).filter fun i => i / 2 = r') :=
      hperm.filter _
    simp [(this.map amount).sum_eq]
  refine ⟨by rw [hmain 0]; decide, by rw [hmain 1]; decide, by rw [hmain 2]; decide,
    by rw [hmain 3]; decide, by rw [hmain 4]; decide, fun h5 h9 => ?_⟩
  rw [hmain r]
  unfold expected_data
  have : ((List.range RECORDS).filter fun i => i / 2 = r) = [] :=
    List.filter_eq_nil_iff.mpr (fun i hi => by
      simp only [List.mem_range, RECORDS] at hi
      simp
      omega)
  rw [this]
  rfl

/-- Witness for C7: the reversed commit order yields the same finals. -/
theorem light_conflict_spec_witness :
    (run_serial (fun i => i / 2) (List.range RECORDS).reverse init_table 0).data_ = 28 ∧
    (run_serial (fun i => i / 2) (List.range RECORDS).reverse init_table 4).data_ = 348 ∧
    (run_serial (fun i => i / 2) (List.range RECORDS).reverse init_table 7).data_ = 0 := by
  have h := light_conflict_spec (List.range RECORDS).reverse 7 (List.reverse_perm _)
  exact ⟨h.1, h.2.2.2.2.1, h.2.2.2.2.2 (by decide) (by decide)⟩

/-- C8: for every assignment function, every commit order and every record
`r`, the record's `id_` equals `r` after all increments run from the
initialized table (unconditionally — including the record every task writes);
moreover a single increment never changes its assigned record's `id_`, and
leaves every record other than its assigned one entirely unchanged. -/
theorem frame_id_spec (assign : Nat → Nat) (l : List Nat) (tbl : Nat → Payload)
    (i r : Nat) :
    (run_serial assign l init_table r).id_ = r ∧
    (apply_task assign tbl i (assign i)).id_ = (tbl (assign i)).id_ ∧
    (r ≠ assign i → apply_task assign tbl i r = tbl r) := by
  refine ⟨?_, ?_, ?_⟩
  · rw [run_serial_id]; rfl
  · simp [apply_task]
  · intro h; simp [apply_task, h]

/-- Witness for C8: in the ExtremeConflict assignment, record 0 — written by
all ten tasks — still has `id_ = 0` after the full run, and one increment of
task 4 (assigned to record 0) leaves record 7 untouched. -/
theorem frame_id_spec_witness :
    (run_serial (fun _ => 0) (List.range RECORDS) init_table 0).id_ = 0 ∧
    apply_task (fun _ => 0) init_table 4 7 = init_table 7 := by
  have h0 := frame_id_spec (fun _ => 0) (List.range RECORDS) init_table 4 0
  have h7 := frame_id_spec (fun _ => 0) (List.range RECORDS) init_table 4 7
  exact ⟨h0.1, h7.2.2 (by decide)⟩

/-- Recognizer for primary-storage inserts in a trade-order trace. -/
def isInsertPrimary : TOEvent → Bool
  | .insertPrimary _ _ => true
  | _ => false

/-- Recognizer for secondary-index inserts in a trade-order trace. -/
def isInsertSecondary : TOEvent → Bool
  | .insertSecondary _ _ _ _ => true
  | _ => false

/-- The TRADE_TYPE scan only issues `get_record` calls. -/
theorem scan_trade_types_events (o : TradeOrderOracle) (target : String) :
    ∀ (fuel i : Nat) (ev : TOEvent), ev ∈ (scan_trade_types o target i fuel).2 →
      ∃ j, ev = .getTradeType j := by
  intro fuel
  induction fuel with
  | zero => intro i ev h; simp [scan_trade_types] at h
  | succ f ih =>
    intro i ev h
    simp only [scan_trade_types] at h
    cases hg : o.tt_get i with
    | error e =>
      rw [hg] at h
      simp only [List.mem_singleton] at h
      exact ⟨i, h⟩
    | ok tt =>
      rw [hg] at h
      simp only at h
      by_cases hid : tt.id_ = target
      · rw [if_pos hid] at h
        simp only [List.mem_singleton] at h
        exact ⟨i, h⟩
      · rw [if_neg hid] at h
        simp only [List.mem_cons] at h
        cases h with
        | inl h => exact ⟨i, h⟩
        | inr h => exact ih (i + 1) ev h

/-- The scan part of a trade-order trace contains no inserts. -/
theorem scan_trade_types_no_inserts (o : TradeOrderOracle) (target : String)
    (fuel i : Nat) :
    (scan_trade_types o target i fuel).2.countP isInsertPrimary = 0 ∧
    (scan_trade_types o target i fuel).2.countP isInsertSecondary = 0 := by
  constructor <;>
    · apply List.countP_eq_zero.mpr
      intro a ha
      obtain ⟨j, rfl⟩ := scan_trade_types_events o target fuel i a ha
      simp [isInsertPrimary, isInsertSecondary]

/-- C9: a successful `do_trade_order` run issues, after the TRADE_TYPE
lookups, exactly one primary insert carrying the generated trade id and
current dts, followed by exactly one secondary-index insert under the key
composed from (symbol id, dts, worker id) whose value is the trade id; it
returns ok exactly when the type scan finds the requested type and both
inserts succeed; and each storage call's error code — the scan's first
failing `get_record`, a failing primary insert, or a failing secondary
insert — is returned unchanged as the first failure. -/
theorem do_trade_order_spec (o : TradeOrderOracle) (target : String)
    (tid dts symb worker : Nat) (e : ErrorCode) :
    ((do_trade_order o target tid dts symb worker).1 = .ok ↔
      (scan_trade_types o target 0 kCount).1 = .ok true ∧
      o.insert_trade = .ok () ∧ o.insert_index = .ok ()) ∧
    ((do_trade_order o target tid dts symb worker).1 = .ok →
      (do_trade_order o target tid dts symb worker).2 =
        (scan_trade_types o target 0 kCount).2 ++
          [.insertPrimary tid dts, .insertSecondary symb dts worker tid] ∧
      (do_trade_order o target tid dts symb worker).2.countP isInsertPrimary = 1 ∧
      (do_trade_order o target tid dts symb worker).2.countP isInsertSecondary = 1) ∧
    ((scan_trade_types o target 0 kCount).1 = .error e →
      (do_trade_order o target tid dts symb worker).1 = .err e) ∧
    ((scan_trade_types o target 0 kCount).1 = .ok true →
      o.insert_trade = .error e →
      (do_trade_order o target tid dts symb worker).1 = .err e) ∧
    ((scan_trade_types o target 0 kCount).1 = .ok true →
      o.insert_trade = .ok () → o.insert_index = .error e →
      (do_trade_order o target tid dts symb worker).1 = .err e) := by
  rcases hscan : scan_trade_types o target 0 kCount with ⟨sres, sevs⟩
  have hsp : sevs.countP isInsertPrimary = 0 := by
    have h := (scan_trade_types_no_inserts o target kCount 0).1
    rw [hscan] at h
    exact h
  have hss : sevs.countP isInsertSecondary = 0 := by
    have h := (scan_trade_types_no_inserts o target kCount 0).2
    rw [hscan] at h
    exact h
  cases sres with
  | error se =>
    have hdo : do_trade_order o target tid dts symb worker = (.err se, sevs) := by
      unfold do_trade_order
      rw [hscan]
    refine ⟨?_, ?_, ?_, ?_, ?_⟩
    · rw [hdo]
      constructor
      · intro h; simp at h
      · rintro ⟨h1, -, -⟩; simp at h1
    · rw [hdo]; intro h; simp at h
    · intro h
      simp only [Except.error.injEq] at h
      subst h
      rw [hdo]
    · intro h; simp at h
    · intro h; simp at h
  | ok found =>
    cases found with
    | false =>
      have hdo : do_trade_order o target tid dts symb worker =
          (assert_nd_trade_failure, sevs) := by
        unfold do_trade_order
        rw [hscan]
        rfl
      refine ⟨?_, ?_, ?_, ?_, ?_⟩
      · rw [hdo]
        constructor
        · intro h; simp [assert_nd_trade_failure] at h
        · rintro ⟨h1, -, -⟩; simp at h1
      · rw [hdo]; intro h; simp [assert_nd_trade_failure] at h
      · intro h; simp at h
      · intro h; simp at h
      · intro h; simp at h
    | true =>
      cases hins : o.insert_trade with
      | error te =>
        have hdo : do_trade_order o target tid dts symb worker =
            (.err te, sevs ++ [.insertPrimary tid dts]) := by
          unfold do_trade_order
          rw [hscan]
          simp [hins]
        refine ⟨?_, ?_, ?_, ?_, ?_⟩
        · rw [hdo]
          constructor
          · intro h; simp at h
          · rintro ⟨-, h2, -⟩; simp at h2
        · rw [hdo]; intro h; simp at h
        · intro h; simp at h
        · intro _ h
          simp only [Except.error.injEq] at h
          subst h
          rw [hdo]
        · intro _ h; simp at h
      | ok tu =>
        cases hidx : o.insert_index with
        | error ie =>
          have hdo : do_trade_order o target tid dts symb worker =
              (.err ie, sevs ++ [.insertPrimary tid dts,
                .insertSecondary symb dts worker tid]) := by
            unfold do_trade_order
            rw [hscan]
            simp [hins, hidx]
          refine ⟨?_, ?_, ?_, ?_, ?_⟩
          · rw [hdo]
            constructor
            · intro h; simp at h
            · rintro ⟨-, -, h3⟩; simp at h3
          · rw [hdo]; intro h; simp at h
          · intro h; simp at h
          · intro _ h; simp at h
          · intro _ _ h
            simp only [Except.error.injEq] at h
            subst h
            rw [hdo]
        | ok iu =>
          have hdo : do_trade_order o target tid dts symb worker =
              (.ok, sevs ++ [.insertPrimary tid dts,
                .insertSecondary symb dts worker tid]) := by
            unfold do_trade_order
            rw [hscan]
            simp [hins, hidx]
          refine ⟨?_, ?_, ?_, ?_, ?_⟩
          · rw [hdo]
            constructor
            · intro _
              exact ⟨rfl, rfl, rfl⟩
            · intro _; rfl
          · intro _
            rw [hdo]
            refine ⟨rfl, ?_, ?_⟩ <;>
              simp [List.countP_append, hsp, hss, List.countP_cons,
                isInsertPrimary, isInsertSecondary]
          · intro h; simp at h
          · intro _ h; simp at h
          · intro _ _ h; simp at h

/-- Witness for C9: a concrete oracle whose third TRADE_TYPE record matches
and whose inserts succeed produces an ok run with exactly one primary and one
secondary insert. -/
theorem do_trade_order_spec_witness :
    (do_trade_order
        ⟨fun i => .ok ⟨if i = 2 then "TLB" else "XXX"⟩, .ok (), .ok ()⟩
        "TLB" 7 11 3 2).1 = .ok ∧
    (do_trade_order
        ⟨fun i => .ok ⟨if i = 2 then "TLB" else "XXX"⟩, .ok (), .ok ()⟩
        "TLB" 7 11 3 2).2.countP isInsertPrimary = 1 ∧
    (do_trade_order
        ⟨fun i => .ok ⟨if i = 2 then "TLB" else "XXX"⟩, .ok (), .ok ()⟩
        "TLB" 7 11 3 2).2.countP isInsertSecondary = 1 := by
  have h := do_trade_order_spec
    ⟨fun i => .ok ⟨if i = 2 then "TLB" else "XXX"⟩, .ok (), .ok ()⟩
    "TLB" 7 11 3 2 (.other 0)
  have hok : (do_trade_order
      ⟨fun i => .ok ⟨if i = 2 then "TLB" else "XXX"⟩, .ok (), .ok ()⟩
      "TLB" 7 11 3 2).1 = .ok :=
    h.1.mpr ⟨rfl, rfl, rfl⟩
  exact ⟨hok, (h.2.1 hok).2.1, (h.2.1 hok).2.2⟩

end Foedus
